import Mathlib

/-!
Shallow embedding of the streaming response decoder of the openai-go
client (src/http.go): the chat-completion stream session `streamWithCtx`,
the generic responses stream session `streamResponsesWithCtx`, and the
pre-stream non-2xx error handling of `postCBWithContext` and
`postCBResponsesWithContext`.

Modelling conventions:
* A scanned line (Go `[]byte`) is a `List Char`.
* JSON decoding (`json.Unmarshal`) is an abstract parameter
  `dec : List Char → Option _`; the stream sessions never inspect JSON
  syntax themselves, only the decoder's verdict.  When `json.Unmarshal`
  fails on a malformed payload it leaves the freshly declared target at
  its zero value (the package validates the input before populating), so
  a decode failure carries the zero `ChatCompletion`.
* The cancellation context is a predicate `cancel : Nat → Bool` giving
  the result of the non-blocking `ctx.Done()` poll at loop iteration `i`.
* `bufio.Scanner` is modelled by the list of successfully scanned lines
  plus a flag `scanFailed` telling whether `scanner.Err()` is non-nil
  after the loop drains.
* Go slices distinguish nil from empty; where that is observable
  (`ChatMessage.ToolCalls`) the model uses `Option (List _)`, with
  `none` for a nil slice and `some []` for a non-nil empty one.
-/

/-- Function name and arguments of a tool call (Go `ToolCallFunction`).
Modelled from the spec: the declarations of the chat payload types
(chat.go) are not among the provided sources; the fields are exactly
those read and written by `streamWithCtx` in http.go and the wire shape
of spec §6. -/
structure ToolCallFunction where
  name : String
  arguments : String
deriving DecidableEq

/-- One tool call, partial or complete (Go `ToolCall`).  `index` models
the `*int` field `Index` (`none` is a nil pointer).  Modelled from the
spec: see `ToolCallFunction`. -/
structure ToolCall where
  index : Option Int
  id : String
  type : String
  function : ToolCallFunction
deriving DecidableEq

/-- The part of a chat message the stream session consults: its tool
calls (Go `ChatMessage.ToolCalls`, a slice that may be nil).  Modelled
from the spec: see `ToolCallFunction`. -/
structure ChatMessage where
  toolCalls : Option (List ToolCall)
deriving DecidableEq

/-- One choice of a chat completion chunk (Go `ChatCompletionChoice`):
a delta (incremental message), a full message, and a finish reason
(empty string when absent).  Modelled from the spec: see
`ToolCallFunction`. -/
structure ChatCompletionChoice where
  delta : ChatMessage
  message : ChatMessage
  finishReason : String
deriving DecidableEq

/-- A decoded chat stream chunk (Go `ChatCompletion`): the optional
top-level `type` tag (used for ping filtering) and the choices.
Modelled from the spec: see `ToolCallFunction`. -/
structure ChatCompletion where
  type : Option String
  choices : List ChatCompletionChoice
deriving DecidableEq

/-- Go `var StreamData = []byte("data: ")` (http.go line 33). -/
def StreamData : List Char := "data: ".toList

/-- Go `var StreamDone = []byte("[DONE]")` (http.go line 34). -/
def StreamDone : List Char := "[DONE]".toList

/-- Zero value of `ChatMessage`. -/
def emptyChatMessage : ChatMessage := ⟨none⟩

/-- Zero value of `ChatCompletion` (Go `ChatCompletion{}`). -/
def emptyChatCompletion : ChatCompletion := ⟨none, []⟩

/-- The distinguishable error values a stream session can deliver:
`ctxErr` is `ctx.Err()` after cancellation, `unmarshalErr p` is the
`json.Unmarshal` failure on payload `p`, `scannerErr` is
`scanner.Err()` after the read loop drains. -/
inductive StreamErr where
  | ctxErr : StreamErr
  | unmarshalErr : List Char → StreamErr
  | scannerErr : StreamErr
deriving DecidableEq

/-- One invocation of the chat `callback` (http.go line 70):
`cb(response, done, err)`. -/
structure CbCall where
  response : ChatCompletion
  done : Bool
  err : Option StreamErr
deriving DecidableEq

/-- Go `fn := ToolCall{Type: "function"}` (http.go line 95): the initial
in-progress call. -/
def initFn : ToolCall := ⟨none, "", "function", ⟨"", ""⟩⟩

/-- The incremental tool-call assembler state owned by one chat stream
session: the in-progress call `fn`, the cursor `toolIndex`, and the
finalized list `toolCalls` (http.go lines 95, 98, 99). -/
structure AsmState where
  fn : ToolCall
  toolIndex : Int
  toolCalls : List ToolCall
deriving DecidableEq

/-- Initial assembler state (http.go lines 95, 98, 99). -/
def initAsmState : AsmState := ⟨initFn, 0, []⟩

/-- Index-change handling (http.go lines 140-144): when the fragment
carries an explicit index different from the cursor, the in-progress
call is flushed to the list, the cursor is incremented by one, and a
fresh call replaces it.  In Go the fresh call's `Index` field is
`&toolIndex`, a pointer to the cursor variable; the embedding records
the value the cursor holds at the assignment. -/
def indexStep (st : AsmState) (tc : ToolCall) : AsmState :=
  match tc.index with
  | some i =>
    if i ≠ st.toolIndex then
      ⟨⟨some (st.toolIndex + 1), "", "function", ⟨"", ""⟩⟩, st.toolIndex + 1,
        st.toolCalls ++ [st.fn]⟩
    else st
  | none => st

/-- Identifier handling (http.go lines 146-148): a non-empty fragment
identifier overwrites the in-progress call's identifier. -/
def idStep (st : AsmState) (tc : ToolCall) : AsmState :=
  if tc.id ≠ "" then { st with fn := { st.fn with id := tc.id } } else st

/-- Name/arguments handling (http.go lines 150-154): a non-empty name
overwrites the in-progress call's name, else non-empty argument text is
appended to its accumulated arguments. -/
def nameArgsStep (st : AsmState) (tc : ToolCall) : AsmState :=
  if tc.function.name ≠ "" then
    { st with fn := { st.fn with function := { st.fn.function with name := tc.function.name } } }
  else if tc.function.arguments ≠ "" then
    { st with fn := { st.fn with function :=
        { st.fn.function with arguments := st.fn.function.arguments ++ tc.function.arguments } } }
  else st

/-- One assembler update for a decoded chunk (http.go lines 137-155),
guarded by `len(entry.Choices) > 0 && len(entry.Choices[0].Delta.ToolCalls) > 0`;
only the first fragment of the delta array is consulted. -/
def assemble (st : AsmState) (entry : ChatCompletion) : AsmState :=
  match entry.choices with
  | [] => st
  | c :: _ =>
    match c.delta.toolCalls with
    | some (tc :: _) => nameArgsStep (idStep (indexStep st tc) tc) tc
    | _ => st

/-- Finalization trigger (http.go lines 156-158):
`len(entry.Choices) > 0 && (FinishReason == "tool_calls" || (FinishReason == "stop" && fn.ID != ""))`. -/
def finishCond (st : AsmState) (entry : ChatCompletion) : Bool :=
  match entry.choices with
  | [] => false
  | c :: _ => c.finishReason == "tool_calls" || (c.finishReason == "stop" && st.fn.id != "")

/-- Attach the finalized list to the chunk's first choice's message
(http.go line 161).  Only reached with non-empty choices. -/
def attachToolCalls (entry : ChatCompletion) (calls : List ToolCall) : ChatCompletion :=
  match entry.choices with
  | [] => entry
  | c :: cs => ⟨entry.type, { c with message := { c.message with toolCalls := some calls } } :: cs⟩

/-- Payload delivered on the `[DONE]` branch (http.go lines 115-123):
`entry` was freshly declared for this line, so it is the zero value, and
the placeholder choice is installed when `len(entry.Choices) <= 0`. -/
def donePayload : ChatCompletion :=
  if emptyChatCompletion.choices.length ≤ 0 then
    ⟨emptyChatCompletion.type, [⟨emptyChatMessage, ⟨some []⟩, ""⟩]⟩
  else emptyChatCompletion

/-- Processing of one scanned line by the chat stream session
(http.go lines 109-169), after the cancellation poll.  Returns the
callback invocations the line causes, and `some` updated assembler
state to continue with, or `none` when the session returns. -/
def processLine (dec : List Char → Option ChatCompletion) (st : AsmState) (b : List Char) :
    List CbCall × Option AsmState :=
  if b.length = 0 then ([], some st)
  else if StreamData.isPrefixOf b then
    if StreamDone.isSuffixOf b then ([⟨donePayload, true, none⟩], none)
    else
      match dec (b.drop StreamData.length) with
      | none => ([⟨emptyChatCompletion, true, some (.unmarshalErr (b.drop StreamData.length))⟩], none)
      | some entry =>
        if entry.type = some "ping" then ([], some st)
        else if finishCond (assemble st entry) entry then
          ([⟨attachToolCalls entry ((assemble st entry).toolCalls ++ [(assemble st entry).fn]), false, none⟩,
            ⟨attachToolCalls entry ((assemble st entry).toolCalls ++ [(assemble st entry).fn]), true, none⟩],
           none)
        else ([⟨entry, false, none⟩], some (assemble st entry))
  else ([], some st)

/-- The chat stream session read loop (http.go lines 100-175): per
scanned line, poll cancellation, then process the line; after the loop
drains, deliver the scanner error if any. -/
def runChat (dec : List Char → Option ChatCompletion) (cancel : Nat → Bool) :
    Nat → AsmState → List (List Char) → Bool → List CbCall
  | _, _, [], scanFailed =>
    if scanFailed then [⟨emptyChatCompletion, true, some .scannerErr⟩] else []
  | i, st, b :: rest, scanFailed =>
    if cancel i then [⟨emptyChatCompletion, true, some .ctxErr⟩]
    else
      match processLine dec st b with
      | (out, none) => out
      | (out, some st2) => out ++ runChat dec cancel (i + 1) st2 rest scanFailed

/-- The chat stream session `streamWithCtx` (http.go lines 92-175), as
the callback-invocation trace it produces on a given scanned-line
sequence. -/
def streamWithCtx (dec : List Char → Option ChatCompletion) (cancel : Nat → Bool)
    (lines : List (List Char)) (scanFailed : Bool) : List CbCall :=
  runChat dec cancel 0 initAsmState lines scanFailed

/-- A decoded event of the responses stream; only the `type` tag is
consulted by the session (http.go line 279).  Modelled from the spec:
the full `ResponseStreamEvent` declaration is not among the provided
sources; spec §6 gives `{ type: string, ... }`. -/
structure ResponseStreamEvent where
  type : String
deriving DecidableEq

/-- One invocation of the `responseCallback`. -/
structure RespCbCall where
  event : ResponseStreamEvent
  done : Bool
  err : Option StreamErr
deriving DecidableEq

/-- Zero value of `ResponseStreamEvent` (Go `ResponseStreamEvent{}`). -/
def emptyRespEvent : ResponseStreamEvent := ⟨""⟩

/-- Go `[]byte("event:")` (http.go line 257). -/
def eventMarker : List Char := "event:".toList

/-- Completion predicate of the responses flavor (http.go line 279). -/
def respDone (ev : ResponseStreamEvent) : Bool :=
  ev.type == "response.completed" || ev.type == "response.failed" || ev.type == "response.cancelled"

/-- Processing of one scanned line by the responses stream session
(http.go lines 251-285), after the cancellation poll.  The Bool is
`true` when the session returns after these invocations. -/
def processRespLine (dec : List Char → Option ResponseStreamEvent) (b : List Char) :
    List RespCbCall × Bool :=
  if b.length = 0 then ([], false)
  else if eventMarker.isPrefixOf b then ([], false)
  else if StreamData.isPrefixOf b then
    if b.drop StreamData.length = StreamDone then ([⟨emptyRespEvent, true, none⟩], true)
    else
      match dec (b.drop StreamData.length) with
      | none => ([⟨emptyRespEvent, true, some (.unmarshalErr (b.drop StreamData.length))⟩], true)
      | some ev => ([⟨ev, respDone ev, none⟩], respDone ev)
  else ([], false)

/-- The responses stream session read loop (http.go lines 242-292). -/
def runResponses (dec : List Char → Option ResponseStreamEvent) (cancel : Nat → Bool) :
    Nat → List (List Char) → Bool → List RespCbCall
  | _, [], scanFailed =>
    if scanFailed then [⟨emptyRespEvent, true, some .scannerErr⟩] else []
  | i, b :: rest, scanFailed =>
    if cancel i then [⟨emptyRespEvent, true, some .ctxErr⟩]
    else
      match processRespLine dec b with
      | (out, true) => out
      | (out, false) => out ++ runResponses dec cancel (i + 1) rest scanFailed

/-- The responses stream session `streamResponsesWithCtx`
(http.go lines 238-292), as the callback-invocation trace it produces. -/
def streamResponsesWithCtx (dec : List Char → Option ResponseStreamEvent) (cancel : Nat → Bool)
    (lines : List (List Char)) (scanFailed : Bool) : List RespCbCall :=
  runResponses dec cancel 0 lines scanFailed

/-- Go `isSuccessStatus` (http.go lines 38-40). -/
def isSuccessStatus (code : Int) : Bool := 200 ≤ code && code < 300

/-- Go `Error` struct (http.go lines 50-55); `param` is `any` in Go,
its value is irrelevant to the claims and is modelled as a string. -/
structure Error where
  message : String
  type : String
  param : Option String
  code : Option String
deriving DecidableEq

/-- Go `GeminiError` struct (http.go lines 58-61). -/
structure GeminiError where
  message : String
  code : Int
deriving DecidableEq

/-- The single-object error wrapper `struct{ Error Error }` used to
decode a non-2xx body (http.go lines 547-549). -/
structure ErrBody where
  error : Error
deriving DecidableEq

/-- One element of the array-of-objects error wrapper
`[]struct{ Error GeminiError }` (http.go lines 555-557). -/
structure GeminiErrBody where
  error : GeminiError
deriving DecidableEq

/-- Outcome of the pre-stream status handling of a stream-initiating
call: either the stream session is started, or a synchronous error is
returned (`apiErr` from `errbody.Error.err()`, `geminiMsgErr` from
`geminiErr[0].Error.Message`, `decodeBodyErr` for "failed to decode
error body").  `indexPanic` marks the run-time panic Go would raise
indexing `geminiErr[0]` when the body decodes to an empty array. -/
inductive PreStreamResult where
  | streamStarted : PreStreamResult
  | apiErr : Error → PreStreamResult
  | geminiMsgErr : String → PreStreamResult
  | decodeBodyErr : PreStreamResult
  | indexPanic : PreStreamResult
deriving DecidableEq

/-- Status handling of `postCBWithContext` (http.go lines 545-573) on a
received response: on non-2xx, decode the (already read) body first as
the single-object wrapper, then as the array-of-objects wrapper, and
return the resulting error synchronously; on success start the chat
stream session.  The two JSON decoders are abstract parameters; request
construction and transport are not modelled. -/
def postCBWithContext (decErrBody : List Char → Option ErrBody)
    (decGeminiBody : List Char → Option (List GeminiErrBody))
    (status : Int) (body : List Char) : PreStreamResult :=
  if !isSuccessStatus status then
    match decErrBody body with
    | some eb => .apiErr eb.error
    | none =>
      match decGeminiBody body with
      | some (g :: _) => .geminiMsgErr g.error.message
      | some [] => .indexPanic
      | none => .decodeBodyErr
  else .streamStarted

/-- Status handling of `postCBResponsesWithContext` (http.go lines
221-234): on non-2xx, decode the body as the single-object wrapper
only; on success start the responses stream session. -/
def postCBResponsesWithContext (decErrBody : List Char → Option ErrBody)
    (status : Int) (body : List Char) : PreStreamResult :=
  if !isSuccessStatus status then
    match decErrBody body with
    | some eb => .apiErr eb.error
    | none => .decodeBodyErr
  else .streamStarted

/-- A done-flag trace is well formed when no invocation follows a
`done = true` one (hence at most one terminal invocation). -/
def traceOk : List Bool → Bool
  | [] => true
  | d :: rest => if d then rest.isEmpty else traceOk rest

/-- Done flags of a chat callback trace. -/
def doneFlags (tr : List CbCall) : List Bool := tr.map fun c => c.done

/-- Done flags of a responses callback trace. -/
def respDoneFlags (tr : List RespCbCall) : List Bool := tr.map fun c => c.done

/-- Number of terminal (`done = true`) invocations in a trace. -/
def countDone (ds : List Bool) : Nat := ds.count true

/-- Decoder that fails on every payload. -/
def decNone : List Char → Option ChatCompletion := fun _ => none

/-- Cancellation signal that is never set. -/
def cancelNever : Nat → Bool := fun _ => false

/-- Cancellation signal that is set from the start. -/
def cancelNow : Nat → Bool := fun _ => true

/-- Chunk with a single delta tool-call fragment and a finish reason. -/
def deltaChunk (tc : ToolCall) (fin : String) : ChatCompletion :=
  ⟨none, [⟨⟨some [tc]⟩, ⟨none⟩, fin⟩]⟩

/-- Fragment constructor used for concrete test streams. -/
def tcFrag (i : Option Int) (ident nm args : String) : ToolCall := ⟨i, ident, "function", ⟨nm, args⟩⟩

/-- Fragment carrying index 0, identifier and name of the first call. -/
def chunkF : ChatCompletion := deltaChunk (tcFrag (some 0) "call0" "f" "") ""

/-- Fragment appending the first half of the arguments. -/
def chunkArgs1 : ChatCompletion := deltaChunk (tcFrag (some 0) "" "" "\x7b\x22a\x22:") ""

/-- Fragment appending the second half of the arguments. -/
def chunkArgs2 : ChatCompletion := deltaChunk (tcFrag (some 0) "" "" "1\x7d") ""

/-- Fragment carrying index 1, identifier and name of the second call. -/
def chunkG : ChatCompletion := deltaChunk (tcFrag (some 1) "call1" "g" "") ""

/-- Chunk with no delta fragments and finish reason "tool_calls". -/
def chunkFinish : ChatCompletion := ⟨none, [⟨⟨none⟩, ⟨none⟩, "tool_calls"⟩]⟩

/-- Fragment carrying explicit index 2 on a fresh stream. -/
def chunkIdx2 : ChatCompletion := deltaChunk (tcFrag (some 2) "call2" "g" "") ""

/-- Chunk both carrying a complete fragment and reporting finish reason
"tool_calls". -/
def chunkFinTrigger : ChatCompletion := deltaChunk (tcFrag (some 0) "call0" "f" "") "tool_calls"

/-- Decoder for the three-line example stream: payload A is the first
call's fragment, B the second call's fragment, C the finishing chunk. -/
def decABC : List Char → Option ChatCompletion := fun p =>
  if p = ['A'] then some chunkF
  else if p = ['B'] then some chunkG
  else if p = ['C'] then some chunkFinish
  else none

/-- Decoder mapping payload A to the finish-triggering chunk. -/
def decFin : List Char → Option ChatCompletion := fun p =>
  if p = ['A'] then some chunkFinTrigger else none

/-- Decoder mapping every payload to the zero chunk. -/
def decZero : List Char → Option ChatCompletion := fun _ => some emptyChatCompletion

/-- Responses-flavor decoder that fails on every payload. -/
def decRespNone : List Char → Option ResponseStreamEvent := fun _ => none

/-- The first call as finalized by the example stream A, B, C: flushed
before the fragment of index 1 arrived.  Its `index` stays `none`
because the initial in-progress call is never replaced. -/
def callF : ToolCall := ⟨none, "call0", "function", ⟨"f", ""⟩⟩

/-- The second call as finalized by the example stream A, B, C. -/
def callG : ToolCall := ⟨some 1, "call1", "function", ⟨"g", ""⟩⟩

/-- The finalized chunk delivered twice at the end of the example
stream A, B, C: the finishing chunk with both calls attached to its
first choice's message, in arrival order. -/
def finalABC : ChatCompletion := ⟨none, [⟨⟨none⟩, ⟨some [callF, callG]⟩, "tool_calls"⟩]⟩

/-- Error-body decoder for which the single-object wrapper fails
(as `json.Unmarshal` does on an array body). -/
def decObjFail : List Char → Option ErrBody := fun _ => none

/-- Error-body decoder for which the array-of-objects wrapper yields
one Gemini error. -/
def decGemQuota : List Char → Option (List GeminiErrBody) := fun _ => some [⟨⟨"quota exceeded", 429⟩⟩]

/-- Error-body decoder for which the array-of-objects wrapper yields
an empty array, as `json.Unmarshal` does on the body `[]`. -/
def decGemEmpty : List Char → Option (List GeminiErrBody) := fun _ => some []

/-- The finalized chunk delivered twice when `chunkFinTrigger` arrives
on a fresh stream: the single assembled call attached to the message. -/
def finTrigOut : ChatCompletion :=
  ⟨none, [⟨⟨some [tcFrag (some 0) "call0" "f" ""]⟩, ⟨some [callF]⟩, "tool_calls"⟩]⟩

/-- A data line built from a payload carries the data prefix. -/
theorem streamData_isPrefixOf_append (p : List Char) :
    StreamData.isPrefixOf (StreamData ++ p) = true := by
  simp [List.isPrefixOf_iff_prefix]

/-- A line carrying the data prefix is not the empty line. -/
theorem length_ne_zero_of_data (b : List Char) (h : StreamData.isPrefixOf b = true) :
    ¬ b.length = 0 := by
  have h1 := (List.isPrefixOf_iff_prefix.mp h).length_le
  have h2 : StreamData.length = 6 := by decide
  omega

/-- The data prefix is a non-empty token. -/
theorem streamData_ne_nil : ¬ StreamData = [] := by decide

/-- The event marker is never a prefix of a data line. -/
theorem eventMarker_not_prefixOf_data (q : List Char) :
    eventMarker.isPrefixOf (StreamData ++ q) = false := by
  have h1 : StreamData ++ q = 'd' :: ("ata: ".toList ++ q) := rfl
  have h2 : eventMarker = 'e' :: "vent:".toList := rfl
  have h3 : ('e' == 'd') = false := by decide
  rw [h1, h2]
  simp [List.isPrefixOf, h3]

/-- Shape of one chat line's processing: the session either continues
with no invocation, continues after one non-terminal invocation, stops
after one terminal invocation, or stops after the non-terminal/terminal
double invocation. -/
theorem processLine_shape (dec : List Char → Option ChatCompletion) (st : AsmState)
    (b : List Char) :
    (∃ st2, processLine dec st b = ([], some st2)) ∨
    (∃ e st2, processLine dec st b = ([⟨e, false, none⟩], some st2)) ∨
    (∃ c, processLine dec st b = ([c], none) ∧ c.done = true) ∨
    (∃ e, processLine dec st b = ([⟨e, false, none⟩, ⟨e, true, none⟩], none)) := by
  unfold processLine
  split
  · exact Or.inl ⟨st, rfl⟩
  split
  · split
    · exact Or.inr (Or.inr (Or.inl ⟨⟨donePayload, true, none⟩, rfl, rfl⟩))
    · split
      · exact Or.inr (Or.inr (Or.inl ⟨_, rfl, rfl⟩))
      · split
        · exact Or.inl ⟨st, rfl⟩
        · split
          · exact Or.inr (Or.inr (Or.inr ⟨_, rfl⟩))
          · exact Or.inr (Or.inl ⟨_, _, rfl⟩)
  · exact Or.inl ⟨st, rfl⟩

/-- Shape of one responses line's processing: continue with no
invocation, continue after one non-terminal invocation, or stop after
one terminal invocation. -/
theorem processRespLine_shape (dec : List Char → Option ResponseStreamEvent) (b : List Char) :
    (processRespLine dec b = ([], false)) ∨
    (∃ ev, processRespLine dec b = ([⟨ev, false, none⟩], false)) ∨
    (∃ c, processRespLine dec b = ([c], true) ∧ c.done = true) := by
  unfold processRespLine
  split
  · exact Or.inl rfl
  split
  · exact Or.inl rfl
  split
  · split
    · exact Or.inr (Or.inr ⟨_, rfl, rfl⟩)
    · split
      · exact Or.inr (Or.inr ⟨_, rfl, rfl⟩)
      · next ev heq =>
        cases hdv : respDone ev with
        | true => exact Or.inr (Or.inr ⟨⟨ev, true, none⟩, rfl, rfl⟩)
        | false => exact Or.inr (Or.inl ⟨ev, rfl⟩)
  · exact Or.inl rfl

/-- Prepending non-terminal flags preserves trace well-formedness. -/
theorem traceOk_cons_false (ds : List Bool) : traceOk (false :: ds) = traceOk ds := by
  simp [traceOk]

/-- The chat stream session never invokes the callback after a
terminal invocation, from any loop position. -/
theorem runChat_traceOk (dec : List Char → Option ChatCompletion) (cancel : Nat → Bool)
    (lines : List (List Char)) :
    ∀ (i : Nat) (st : AsmState) (sf : Bool),
    traceOk (doneFlags (runChat dec cancel i st lines sf)) = true := by
  induction lines with
  | nil =>
    intro i st sf
    cases sf <;> simp [runChat, doneFlags, traceOk]
  | cons b rest ih =>
    intro i st sf
    by_cases hc : cancel i
    · simp [runChat, hc, doneFlags, traceOk]
    · rcases processLine_shape dec st b with ⟨st2, hp⟩ | ⟨e, st2, hp⟩ | ⟨c, hp, hd⟩ | ⟨e, hp⟩
      · simpa [runChat, hc, hp, doneFlags] using ih (i + 1) st2 sf
      · simpa [runChat, hc, hp, doneFlags, traceOk] using ih (i + 1) st2 sf
      · simp [runChat, hc, hp, doneFlags, traceOk, hd]
      · simp [runChat, hc, hp, doneFlags, traceOk]

/-- The responses stream session never invokes the callback after a
terminal invocation, from any loop position. -/
theorem runResponses_traceOk (dec : List Char → Option ResponseStreamEvent)
    (cancel : Nat → Bool) (lines : List (List Char)) :
    ∀ (i : Nat) (sf : Bool),
    traceOk (respDoneFlags (runResponses dec cancel i lines sf)) = true := by
  induction lines with
  | nil =>
    intro i sf
    cases sf <;> simp [runResponses, respDoneFlags, traceOk]
  | cons b rest ih =>
    intro i sf
    by_cases hc : cancel i
    · simp [runResponses, hc, respDoneFlags, traceOk]
    · rcases processRespLine_shape dec b with hp | ⟨ev, hp⟩ | ⟨c, hp, hd⟩
      · simpa [runResponses, hc, hp, respDoneFlags] using ih (i + 1) sf
      · simpa [runResponses, hc, hp, respDoneFlags, traceOk] using ih (i + 1) sf
      · simp [runResponses, hc, hp, respDoneFlags, traceOk, hd]

/-- When the scanner ends with a read error, the chat stream session
makes exactly one terminal invocation, from any loop position. -/
theorem runChat_countDone_scanFailed (dec : List Char → Option ChatCompletion)
    (cancel : Nat → Bool) (lines : List (List Char)) :
    ∀ (i : Nat) (st : AsmState),
    countDone (doneFlags (runChat dec cancel i st lines true)) = 1 := by
  induction lines with
  | nil =>
    intro i st
    simp [runChat, doneFlags, countDone]
  | cons b rest ih =>
    intro i st
    by_cases hc : cancel i
    · simp [runChat, hc, doneFlags, countDone]
    · rcases processLine_shape dec st b with ⟨st2, hp⟩ | ⟨e, st2, hp⟩ | ⟨c, hp, hd⟩ | ⟨e, hp⟩
      · simpa [runChat, hc, hp, doneFlags, countDone] using ih (i + 1) st2
      · simpa [runChat, hc, hp, doneFlags, countDone, List.count_cons] using ih (i + 1) st2
      · simp [runChat, hc, hp, doneFlags, countDone, hd]
      · simp [runChat, hc, hp, doneFlags, countDone]

/-- When the scanner ends with a read error, the responses stream
session makes exactly one terminal invocation, from any loop
position. -/
theorem runResponses_countDone_scanFailed (dec : List Char → Option ResponseStreamEvent)
    (cancel : Nat → Bool) (lines : List (List Char)) :
    ∀ (i : Nat),
    countDone (respDoneFlags (runResponses dec cancel i lines true)) = 1 := by
  induction lines with
  | nil =>
    intro i
    simp [runResponses, respDoneFlags, countDone]
  | cons b rest ih =>
    intro i
    by_cases hc : cancel i
    · simp [runResponses, hc, respDoneFlags, countDone]
    · rcases processRespLine_shape dec b with hp | ⟨ev, hp⟩ | ⟨c, hp, hd⟩
      · simpa [runResponses, hc, hp, respDoneFlags, countDone] using ih (i + 1)
      · simpa [runResponses, hc, hp, respDoneFlags, countDone, List.count_cons] using ih (i + 1)
      · simp [runResponses, hc, hp, respDoneFlags, countDone, hd]

/-- A data line ending in the terminator token makes the chat session
deliver the placeholder terminal callback and stop, from any state. -/
theorem chat_terminatorLine_stops (dec : List Char → Option ChatCompletion)
    (cancel : Nat → Bool) (i : Nat) (st : AsmState) (rest : List (List Char)) (sf : Bool)
    (b : List Char) (hc : cancel i = false)
    (hpre : StreamData.isPrefixOf b = true) (hsuf : StreamDone.isSuffixOf b = true) :
    runChat dec cancel i st (b :: rest) sf = [⟨donePayload, true, none⟩] := by
  have hb := length_ne_zero_of_data _ hpre
  simp [runChat, hc, processLine, hb, hpre, hsuf]

/-- A data line whose payload fails to decode makes the chat session
deliver the terminal decode-error callback with the zero payload and
stop, from any state. -/
theorem chat_decodeFail_stops (dec : List Char → Option ChatCompletion)
    (cancel : Nat → Bool) (i : Nat) (st : AsmState) (rest : List (List Char)) (sf : Bool)
    (p : List Char) (hc : cancel i = false) (hdec : dec p = none)
    (hsuf : StreamDone.isSuffixOf (StreamData ++ p) = false) :
    runChat dec cancel i st ((StreamData ++ p) :: rest) sf =
      [⟨emptyChatCompletion, true, some (.unmarshalErr p)⟩] := by
  have hb := length_ne_zero_of_data _ (streamData_isPrefixOf_append p)
  simp [runChat, hc, processLine, hb, streamData_ne_nil, streamData_isPrefixOf_append, hsuf,
    List.drop_left, hdec]

/-- A data line whose payload is exactly the terminator token makes the
responses session deliver the clean terminal callback and stop. -/
theorem resp_terminator_stops (dec : List Char → Option ResponseStreamEvent)
    (cancel : Nat → Bool) (i : Nat) (rest : List (List Char)) (sf : Bool)
    (hc : cancel i = false) :
    runResponses dec cancel i ((StreamData ++ StreamDone) :: rest) sf =
      [⟨emptyRespEvent, true, none⟩] := by
  have hb := length_ne_zero_of_data _ (streamData_isPrefixOf_append StreamDone)
  simp [runResponses, hc, processRespLine, hb, streamData_ne_nil, eventMarker_not_prefixOf_data,
    streamData_isPrefixOf_append, List.drop_left]

/-- A data line whose payload is not the terminator token and fails to
decode makes the responses session deliver the terminal decode-error
callback and stop. -/
theorem resp_decodeFail_stops (dec : List Char → Option ResponseStreamEvent)
    (cancel : Nat → Bool) (i : Nat) (rest : List (List Char)) (sf : Bool)
    (q : List Char) (hc : cancel i = false) (hq : ¬ q = StreamDone) (hdec : dec q = none) :
    runResponses dec cancel i ((StreamData ++ q) :: rest) sf =
      [⟨emptyRespEvent, true, some (.unmarshalErr q)⟩] := by
  have hb := length_ne_zero_of_data _ (streamData_isPrefixOf_append q)
  simp [runResponses, hc, processRespLine, hb, streamData_ne_nil, eventMarker_not_prefixOf_data,
    streamData_isPrefixOf_append, List.drop_left, hq, hdec]

/-- The identifier step never touches the finalized list. -/
theorem idStep_toolCalls (st : AsmState) (tc : ToolCall) :
    (idStep st tc).toolCalls = st.toolCalls := by
  unfold idStep
  split <;> rfl

/-- The identifier step never touches the cursor. -/
theorem idStep_toolIndex (st : AsmState) (tc : ToolCall) :
    (idStep st tc).toolIndex = st.toolIndex := by
  unfold idStep
  split <;> rfl

/-- The identifier step never touches the in-progress call's index. -/
theorem idStep_fn_index (st : AsmState) (tc : ToolCall) :
    (idStep st tc).fn.index = st.fn.index := by
  unfold idStep
  split <;> rfl

/-- The name/arguments step never touches the finalized list. -/
theorem nameArgsStep_toolCalls (st : AsmState) (tc : ToolCall) :
    (nameArgsStep st tc).toolCalls = st.toolCalls := by
  unfold nameArgsStep
  split
  · rfl
  split <;> rfl

/-- The name/arguments step never touches the cursor. -/
theorem nameArgsStep_toolIndex (st : AsmState) (tc : ToolCall) :
    (nameArgsStep st tc).toolIndex = st.toolIndex := by
  unfold nameArgsStep
  split
  · rfl
  split <;> rfl

/-- The name/arguments step never touches the in-progress call's index. -/
theorem nameArgsStep_fn_index (st : AsmState) (tc : ToolCall) :
    (nameArgsStep st tc).fn.index = st.fn.index := by
  unfold nameArgsStep
  split
  · rfl
  split <;> rfl

/-- C1: when a decoded, non-ping chunk's first choice reports finish
reason "tool_calls", or "stop" while the (just updated) in-progress
call's identifier is non-empty, the in-progress call is appended to the
finalized list, the list is attached to the chunk's first choice's
message, the callback is invoked exactly twice — first with that chunk
and done = false and nil error, then with the same chunk and
done = true and nil error — and the session stops processing further
lines. -/
theorem C1_finalizationTrigger
    (dec : List Char → Option ChatCompletion) (cancel : Nat → Bool) (i : Nat)
    (st : AsmState) (rest : List (List Char)) (sf : Bool) (p : List Char)
    (entry : ChatCompletion) (c : ChatCompletionChoice) (cs : List ChatCompletionChoice)
    (hc : cancel i = false)
    (hdec : dec p = some entry)
    (hsuf : StreamDone.isSuffixOf (StreamData ++ p) = false)
    (hping : ¬ entry.type = some "ping")
    (hchoices : entry.choices = c :: cs)
    (hfin : c.finishReason = "tool_calls" ∨
      (c.finishReason = "stop" ∧ ¬ (assemble st entry).fn.id = "")) :
    runChat dec cancel i st ((StreamData ++ p) :: rest) sf =
      [⟨attachToolCalls entry ((assemble st entry).toolCalls ++ [(assemble st entry).fn]),
          false, none⟩,
       ⟨attachToolCalls entry ((assemble st entry).toolCalls ++ [(assemble st entry).fn]),
          true, none⟩] ∧
    attachToolCalls entry ((assemble st entry).toolCalls ++ [(assemble st entry).fn]) =
      ⟨entry.type, { c with message := { c.message with
          toolCalls := some ((assemble st entry).toolCalls ++ [(assemble st entry).fn]) } } :: cs⟩ := by
  have hfinB : finishCond (assemble st entry) entry = true := by
    rcases hfin with h | ⟨h1, h2⟩
    · have hb : (c.finishReason == "tool_calls") = true := by
        rw [h]
        exact beq_self_eq_true _
      simp [finishCond, hchoices, hb]
    · have hb1 : (c.finishReason == "stop") = true := by
        rw [h1]
        exact beq_self_eq_true _
      have hb3 : ((assemble st entry).fn.id != "") = true := bne_iff_ne.mpr h2
      simp [finishCond, hchoices, hb1, hb3]
  refine ⟨?_, ?_⟩
  · have hb := length_ne_zero_of_data _ (streamData_isPrefixOf_append p)
    simp [runChat, hc, processLine, hb, streamData_ne_nil, streamData_isPrefixOf_append,
      hsuf, List.drop_left, hdec, hping, hfinB]
  · simp [attachToolCalls, hchoices]

/-- C1 witness: a fresh stream receiving one chunk that both carries a
complete fragment and reports finish reason "tool_calls" yields exactly
the double callback with the assembled call attached, and stops. -/
theorem C1_finalizationTrigger_witness :
    runChat decFin cancelNever 0 initAsmState [StreamData ++ ['A']] false =
      [⟨finTrigOut, false, none⟩, ⟨finTrigOut, true, none⟩] :=
  (C1_finalizationTrigger decFin cancelNever 0 initAsmState [] false ['A'] chunkFinTrigger
    ⟨⟨some [tcFrag (some 0) "call0" "f" ""]⟩, ⟨none⟩, "tool_calls"⟩ []
    rfl (by decide) (by decide) (by decide) (by decide) (Or.inl rfl)).1

/-- C10: whenever the chat terminator branch fires (a data-prefixed
line ending in the terminator token), the terminal callback's payload
is exactly one placeholder choice whose message holds an empty,
non-nil tool-call list, with a nil error — for every assembler state,
so any accumulated tool calls are discarded, and for every decoder, so
no decode is attempted. -/
theorem C10_doneBranchPayload (dec : List Char → Option ChatCompletion) (st : AsmState)
    (b : List Char)
    (hpre : StreamData.isPrefixOf b = true) (hsuf : StreamDone.isSuffixOf b = true) :
    processLine dec st b =
      ([⟨⟨none, [⟨⟨none⟩, ⟨some []⟩, ""⟩]⟩, true, none⟩], none) := by
  have hb := length_ne_zero_of_data _ hpre
  simp [processLine, hb, hpre, hsuf, donePayload, emptyChatCompletion, emptyChatMessage]

/-- C10 witness: the terminator branch discards a non-trivial
accumulated assembler state and delivers the placeholder payload. -/
theorem C10_doneBranchPayload_witness :
    processLine decNone ⟨callF, 5, [callG]⟩ ("data: [DONE]".toList) =
      ([⟨⟨none, [⟨⟨none⟩, ⟨some []⟩, ""⟩]⟩, true, none⟩], none) :=
  C10_doneBranchPayload decNone ⟨callF, 5, [callG]⟩ ("data: [DONE]".toList)
    (by decide) (by decide)

/-- C2 counterexample: the chat flavor's terminator check is a suffix
check on the whole line, not a full-content equality on the payload.
The line "data: x[DONE]" has payload "x[DONE]", which differs from the
terminator token, yet the session delivers the clean placeholder
terminal callback instead of passing the payload to the decoder (the
decoder here fails on every payload, so a decode attempt would have
produced a decode-error callback). -/
theorem C2_terminatorCheck_cex :
    streamWithCtx decNone cancelNever ["data: x[DONE]".toList] false =
      [⟨donePayload, true, none⟩] ∧
    ¬ ("data: x[DONE]".toList.drop StreamData.length = StreamDone) ∧
    ¬ (streamWithCtx decNone cancelNever ["data: x[DONE]".toList] false =
      [⟨emptyChatCompletion, true, some (.unmarshalErr ("x[DONE]".toList))⟩]) := by
  refine ⟨by decide, by decide, by decide⟩

/-- C2 (amended): the responses flavor terminates on a data line
exactly when the payload equals the terminator token in full content,
otherwise the payload is passed to decoding; the chat flavor instead
terminates on a data-prefixed line exactly when the whole line ends
with the terminator token, otherwise the payload is passed to
decoding.  In both flavors a payload exactly equal to the terminator
always yields done = true with no decode attempt. -/
theorem C2_terminatorCheck (dec : List Char → Option ChatCompletion)
    (decR : List Char → Option ResponseStreamEvent) (cancel : Nat → Bool) (i : Nat)
    (st : AsmState) (rest restR : List (List Char)) (sf sfR : Bool) (p q : List Char)
    (hc : cancel i = false) :
    (StreamDone.isSuffixOf (StreamData ++ p) = true →
      runChat dec cancel i st ((StreamData ++ p) :: rest) sf = [⟨donePayload, true, none⟩]) ∧
    (StreamDone.isSuffixOf (StreamData ++ p) = false → dec p = none →
      runChat dec cancel i st ((StreamData ++ p) :: rest) sf =
        [⟨emptyChatCompletion, true, some (.unmarshalErr p)⟩]) ∧
    (q = StreamDone →
      runResponses decR cancel i ((StreamData ++ q) :: restR) sfR =
        [⟨emptyRespEvent, true, none⟩]) ∧
    (¬ q = StreamDone → decR q = none →
      runResponses decR cancel i ((StreamData ++ q) :: restR) sfR =
        [⟨emptyRespEvent, true, some (.unmarshalErr q)⟩]) := by
  refine ⟨?_, ?_, ?_, ?_⟩
  · intro hsuf
    exact chat_terminatorLine_stops dec cancel i st rest sf _ hc
      (streamData_isPrefixOf_append p) hsuf
  · intro hsuf hdec
    exact chat_decodeFail_stops dec cancel i st rest sf p hc hdec hsuf
  · intro hq
    subst hq
    exact resp_terminator_stops decR cancel i restR sfR hc
  · intro hq hdec
    exact resp_decodeFail_stops decR cancel i restR sfR q hc hq hdec

/-- C2 witness: concrete instances of all four amended behaviors. -/
theorem C2_terminatorCheck_witness :
    runChat decNone cancelNever 0 initAsmState [StreamData ++ StreamDone] false =
      [⟨donePayload, true, none⟩] ∧
    runChat decNone cancelNever 0 initAsmState [StreamData ++ ['x']] false =
      [⟨emptyChatCompletion, true, some (.unmarshalErr ['x'])⟩] ∧
    runResponses decRespNone cancelNever 0 [StreamData ++ StreamDone] false =
      [⟨emptyRespEvent, true, none⟩] ∧
    runResponses decRespNone cancelNever 0 [StreamData ++ ['x']] false =
      [⟨emptyRespEvent, true, some (.unmarshalErr ['x'])⟩] :=
  ⟨(C2_terminatorCheck decNone decRespNone cancelNever 0 initAsmState [] [] false false
      StreamDone StreamDone rfl).1 (by decide),
   (C2_terminatorCheck decNone decRespNone cancelNever 0 initAsmState [] [] false false
      ['x'] ['x'] rfl).2.1 (by decide) rfl,
   (C2_terminatorCheck decNone decRespNone cancelNever 0 initAsmState [] [] false false
      StreamDone StreamDone rfl).2.2.1 rfl,
   (C2_terminatorCheck decNone decRespNone cancelNever 0 initAsmState [] [] false false
      ['x'] ['x'] rfl).2.2.2 (by decide) rfl⟩

/-- C5: in both stream flavors, the callback trace of one session
contains no invocation after a done = true invocation (hence at most
one terminal invocation), for every decoder, cancellation pattern,
line sequence and scanner outcome. -/
theorem C5_terminalOrdering (dec : List Char → Option ChatCompletion)
    (decR : List Char → Option ResponseStreamEvent) (cancel cancelR : Nat → Bool)
    (lines linesR : List (List Char)) (sf sfR : Bool) :
    traceOk (doneFlags (streamWithCtx dec cancel lines sf)) = true ∧
    traceOk (respDoneFlags (streamResponsesWithCtx decR cancelR linesR sfR)) = true :=
  ⟨runChat_traceOk dec cancel lines 0 initAsmState sf,
   runResponses_traceOk decR cancelR linesR 0 sfR⟩

/-- C6 counterexample: a chat stream that is consumed to completion —
one well-formed data chunk, then end of body with no read error, no
terminator, no finish reason and no decode error — produces zero
terminal callbacks, not exactly one. -/
theorem C6_terminalCallback_cex :
    streamWithCtx decZero cancelNever ["data: A".toList] false =
      [⟨emptyChatCompletion, false, none⟩] ∧
    countDone (doneFlags (streamWithCtx decZero cancelNever ["data: A".toList] false)) = 0 := by
  refine ⟨by decide, by decide⟩

/-- C6 (amended): when the scanner ends with a read error, exactly one
terminal callback occurs, in both flavors, for every decoder,
cancellation pattern and line sequence; but when the body ends cleanly
without an explicit terminator, the session may make no terminal
callback at all, as on the one-chunk stream below. -/
theorem C6_terminalCallback (dec : List Char → Option ChatCompletion)
    (decR : List Char → Option ResponseStreamEvent) (cancel cancelR : Nat → Bool)
    (lines linesR : List (List Char)) :
    countDone (doneFlags (streamWithCtx dec cancel lines true)) = 1 ∧
    countDone (respDoneFlags (streamResponsesWithCtx decR cancelR linesR true)) = 1 ∧
    countDone (doneFlags (streamWithCtx decZero cancelNever ["data: B".toList] false)) = 0 :=
  ⟨runChat_countDone_scanFailed dec cancel lines 0 initAsmState,
   runResponses_countDone_scanFailed decR cancelR linesR 0,
   by decide⟩

/-- C7: when a chat data line's payload fails to decode, the session
delivers exactly one terminal callback carrying the zero (empty)
payload and the decode error, and stops immediately: nothing follows,
whatever lines remain, and no prior partial payload is re-emitted. -/
theorem C7_decodeFailure (dec : List Char → Option ChatCompletion) (cancel : Nat → Bool)
    (i : Nat) (st : AsmState) (rest : List (List Char)) (sf : Bool) (p : List Char)
    (hc : cancel i = false) (hdec : dec p = none)
    (hsuf : StreamDone.isSuffixOf (StreamData ++ p) = false) :
    runChat dec cancel i st ((StreamData ++ p) :: rest) sf =
      [⟨emptyChatCompletion, true, some (.unmarshalErr p)⟩] :=
  chat_decodeFail_stops dec cancel i st rest sf p hc hdec hsuf

/-- C7 witness: a failing payload on a stream with accumulated
assembler state and further pending lines. -/
theorem C7_decodeFailure_witness :
    runChat decNone cancelNever 0 ⟨callF, 1, [callG]⟩
        [StreamData ++ ['x'], StreamData ++ ['y']] false =
      [⟨emptyChatCompletion, true, some (.unmarshalErr ['x'])⟩] :=
  C7_decodeFailure decNone cancelNever 0 ⟨callF, 1, [callG]⟩ [StreamData ++ ['y']] false
    ['x'] rfl rfl (by decide)

/-- C8: when the cancellation signal is already set at the first poll,
both stream flavors make exactly one callback invocation — empty
payload, done = true, the distinguished cancellation error — and
nothing else: no assembler state is flushed. -/
theorem C8_preCancellation (dec : List Char → Option ChatCompletion)
    (decR : List Char → Option ResponseStreamEvent) (cancel : Nat → Bool)
    (b bR : List Char) (rest restR : List (List Char)) (sf sfR : Bool)
    (hc : cancel 0 = true) :
    streamWithCtx dec cancel (b :: rest) sf =
      [⟨emptyChatCompletion, true, some .ctxErr⟩] ∧
    streamResponsesWithCtx decR cancel (bR :: restR) sfR =
      [⟨emptyRespEvent, true, some .ctxErr⟩] := by
  constructor
  · simp [streamWithCtx, runChat, hc]
  · simp [streamResponsesWithCtx, runResponses, hc]

/-- C8 witness: cancellation set from the start on one-line streams. -/
theorem C8_preCancellation_witness :
    streamWithCtx decNone cancelNow [['x']] false =
      [⟨emptyChatCompletion, true, some .ctxErr⟩] ∧
    streamResponsesWithCtx decRespNone cancelNow [['y']] false =
      [⟨emptyRespEvent, true, some .ctxErr⟩] :=
  C8_preCancellation decNone decRespNone cancelNow ['x'] ['y'] [] [] false false rfl

/-- C3 counterexample: a fragment carrying explicit index 2 on a fresh
stream (cursor 0) makes the cursor advance to 1, not to the fragment's
index 2, and the fresh in-progress call is initialized with index 1,
not 2. -/
theorem C3_indexChange_cex :
    (tcFrag (some 2) "call2" "g" "").index = some 2 ∧
    initAsmState.toolIndex = 0 ∧
    (assemble initAsmState chunkIdx2).toolIndex = 1 ∧
    (assemble initAsmState chunkIdx2).fn.index = some 1 ∧
    ¬ ((1 : Int) = 2) := by
  refine ⟨by decide, by decide, by decide, by decide, by decide⟩

/-- C3 (amended): for every delta tool-call fragment carrying an
explicit index different from the current cursor, the current
in-progress call is first appended to the finalized list, the cursor
is incremented by one (not necessarily to the fragment's index), and a
fresh in-progress call initialized with the incremented cursor value
replaces it; in particular fragments with index 0 then index 1 produce
two distinct finalized calls in arrival order, the first flushed
before the second begins. -/
theorem C3_indexChange (st : AsmState) (entry : ChatCompletion)
    (c : ChatCompletionChoice) (cs : List ChatCompletionChoice)
    (tc : ToolCall) (ts : List ToolCall) (i : Int)
    (hchoices : entry.choices = c :: cs)
    (hdelta : c.delta.toolCalls = some (tc :: ts))
    (hidx : tc.index = some i)
    (hne : ¬ i = st.toolIndex) :
    ((assemble st entry).toolCalls = st.toolCalls ++ [st.fn] ∧
     (assemble st entry).toolIndex = st.toolIndex + 1 ∧
     (assemble st entry).fn.index = some (st.toolIndex + 1)) ∧
    streamWithCtx decABC cancelNever
        ["data: A".toList, "data: B".toList, "data: C".toList] false =
      [⟨chunkF, false, none⟩, ⟨chunkG, false, none⟩,
       ⟨finalABC, false, none⟩, ⟨finalABC, true, none⟩] := by
  constructor
  · have hasm : assemble st entry = nameArgsStep (idStep (indexStep st tc) tc) tc := by
      simp [assemble, hchoices, hdelta]
    have hidxstep : indexStep st tc =
        ⟨⟨some (st.toolIndex + 1), "", "function", ⟨"", ""⟩⟩, st.toolIndex + 1,
          st.toolCalls ++ [st.fn]⟩ := by
      simp [indexStep, hidx, hne]
    refine ⟨?_, ?_, ?_⟩
    · rw [hasm, nameArgsStep_toolCalls, idStep_toolCalls, hidxstep]
    · rw [hasm, nameArgsStep_toolIndex, idStep_toolIndex, hidxstep]
    · rw [hasm, nameArgsStep_fn_index, idStep_fn_index, hidxstep]
  · decide

/-- C3 witness: the general flush behavior applied to the index-2
fragment on a fresh stream, together with the 0-then-1 example. -/
theorem C3_indexChange_witness :
    ((assemble initAsmState chunkIdx2).toolCalls = [] ++ [initFn] ∧
     (assemble initAsmState chunkIdx2).toolIndex = 0 + 1 ∧
     (assemble initAsmState chunkIdx2).fn.index = some (0 + 1)) ∧
    streamWithCtx decABC cancelNever
        ["data: A".toList, "data: B".toList, "data: C".toList] false =
      [⟨chunkF, false, none⟩, ⟨chunkG, false, none⟩,
       ⟨finalABC, false, none⟩, ⟨finalABC, true, none⟩] :=
  C3_indexChange initAsmState chunkIdx2
    ⟨⟨some [tcFrag (some 2) "call2" "g" ""]⟩, ⟨none⟩, ""⟩ []
    (tcFrag (some 2) "call2" "g" "") [] 2 rfl rfl rfl (by decide)

/-- C4: for every delta tool-call fragment processed by the assembler,
a non-empty function name overwrites the in-progress call's name while
the same fragment's argument text is ignored; otherwise non-empty
argument text is appended (concatenated, never replacing) to the
accumulated arguments while the name is untouched — never both in one
update — and the example fragments (a name, then two argument halves
of a small JSON object) assemble to that name with the two halves
concatenated exactly, no separators inserted. -/
theorem C4_nameXorArgs (st : AsmState) (entry : ChatCompletion)
    (c : ChatCompletionChoice) (cs : List ChatCompletionChoice)
    (tc : ToolCall) (ts : List ToolCall)
    (hchoices : entry.choices = c :: cs)
    (hdelta : c.delta.toolCalls = some (tc :: ts)) :
    ((¬ tc.function.name = "" →
        (assemble st entry).fn.function.name = tc.function.name ∧
        (assemble st entry).fn.function.arguments =
          (idStep (indexStep st tc) tc).fn.function.arguments) ∧
     (tc.function.name = "" → ¬ tc.function.arguments = "" →
        (assemble st entry).fn.function.name =
          (idStep (indexStep st tc) tc).fn.function.name ∧
        (assemble st entry).fn.function.arguments =
          (idStep (indexStep st tc) tc).fn.function.arguments ++ tc.function.arguments)) ∧
    (assemble (assemble (assemble initAsmState chunkF) chunkArgs1) chunkArgs2).fn.function =
      ⟨"f", "\x7b\x22a\x22:1\x7d"⟩ := by
  constructor
  · have hasm : assemble st entry = nameArgsStep (idStep (indexStep st tc) tc) tc := by
      simp [assemble, hchoices, hdelta]
    constructor
    · intro hname
      rw [hasm]
      simp [nameArgsStep, hname]
    · intro hname hargs
      rw [hasm]
      simp [nameArgsStep, hname, hargs]
  · decide

/-- C4 witness: the name-bearing first fragment of the example stream
sets the name and leaves the arguments untouched, and the three
example fragments assemble exactly. -/
theorem C4_nameXorArgs_witness :
    (assemble initAsmState chunkF).fn.function.name = "f" ∧
    (assemble (assemble (assemble initAsmState chunkF) chunkArgs1) chunkArgs2).fn.function =
      ⟨"f", "\x7b\x22a\x22:1\x7d"⟩ :=
  ⟨((C4_nameXorArgs initAsmState chunkF
      ⟨⟨some [tcFrag (some 0) "call0" "f" ""]⟩, ⟨none⟩, ""⟩ []
      (tcFrag (some 0) "call0" "f" "") [] rfl rfl).1.1 (by decide)).1,
   (C4_nameXorArgs initAsmState chunkF
      ⟨⟨some [tcFrag (some 0) "call0" "f" ""]⟩, ⟨none⟩, ""⟩ []
      (tcFrag (some 0) "call0" "f" "") [] rfl rfl).2⟩

/-- C9 counterexample: on the same non-2xx response whose body decodes
only under the array-of-objects wrapper, the chat flavor returns the
decoded Gemini message but the responses flavor returns the
decode-failure error: the responses flavor does not tolerate the
second schema variant. -/
theorem C9_preStreamError_cex :
    postCBWithContext decObjFail decGemQuota 400 ['['] = .geminiMsgErr "quota exceeded" ∧
    postCBResponsesWithContext decObjFail 400 ['['] = .decodeBodyErr ∧
    ¬ (PreStreamResult.decodeBodyErr = .geminiMsgErr "quota exceeded") := by
  refine ⟨by decide, by decide, by decide⟩

/-- C9 (amended): on every non-2xx response the stream session never
starts in either flavor.  The responses flavor always returns an error
synchronously, decoding only the single-object wrapper and reporting a
decode failure otherwise (it never panics).  The chat flavor returns
the single-object-wrapper error when that decodes, else the first
element's message of the array-of-objects wrapper when that decodes to
a non-empty array, else a decode-failure error when neither decodes —
but when the body decodes to an empty array, the synchronous path
panics indexing the first element instead of returning an error. -/
theorem C9_preStreamError (dObj : List Char → Option ErrBody)
    (dGem : List Char → Option (List GeminiErrBody)) (status : Int) (body : List Char)
    (hs : isSuccessStatus status = false) :
    (¬ postCBWithContext dObj dGem status body = .streamStarted) ∧
    (¬ postCBResponsesWithContext dObj status body = .streamStarted) ∧
    (¬ postCBResponsesWithContext dObj status body = .indexPanic) ∧
    (∀ eb, dObj body = some eb →
      postCBWithContext dObj dGem status body = .apiErr eb.error ∧
      postCBResponsesWithContext dObj status body = .apiErr eb.error) ∧
    (∀ g gs, dObj body = none → dGem body = some (g :: gs) →
      postCBWithContext dObj dGem status body = .geminiMsgErr g.error.message) ∧
    (dObj body = none → dGem body = some [] →
      postCBWithContext dObj dGem status body = .indexPanic) ∧
    (dObj body = none → dGem body = none →
      postCBWithContext dObj dGem status body = .decodeBodyErr) ∧
    (dObj body = none → postCBResponsesWithContext dObj status body = .decodeBodyErr) := by
  refine ⟨?_, ?_, ?_, ?_, ?_, ?_, ?_, ?_⟩
  · rcases hObj : dObj body with _ | eb
    · rcases hGem : dGem body with _ | gl
      · simp [postCBWithContext, hs, hObj, hGem]
      · rcases gl with _ | ⟨g, gs⟩
        · simp [postCBWithContext, hs, hObj, hGem]
        · simp [postCBWithContext, hs, hObj, hGem]
    · simp [postCBWithContext, hs, hObj]
  · rcases hObj : dObj body with _ | eb
    · simp [postCBResponsesWithContext, hs, hObj]
    · simp [postCBResponsesWithContext, hs, hObj]
  · rcases hObj : dObj body with _ | eb
    · simp [postCBResponsesWithContext, hs, hObj]
    · simp [postCBResponsesWithContext, hs, hObj]
  · intro eb hObj
    constructor
    · simp [postCBWithContext, hs, hObj]
    · simp [postCBResponsesWithContext, hs, hObj]
  · intro g gs hObj hGem
    simp [postCBWithContext, hs, hObj, hGem]
  · intro hObj hGem
    simp [postCBWithContext, hs, hObj, hGem]
  · intro hObj hGem
    simp [postCBWithContext, hs, hObj, hGem]
  · intro hObj
    simp [postCBResponsesWithContext, hs, hObj]

/-- C9 witness: the amended behavior on concrete 400 responses — one
whose body decodes only under the array-of-objects wrapper with one
element, and one whose body decodes to the empty array, reaching the
panic on the chat flavor while the responses flavor still returns its
decode-failure error. -/
theorem C9_preStreamError_witness :
    (¬ postCBWithContext decObjFail decGemQuota 400 ['['] = .streamStarted) ∧
    postCBWithContext decObjFail decGemQuota 400 ['['] = .geminiMsgErr "quota exceeded" ∧
    postCBWithContext decObjFail decGemEmpty 400 ['['] = .indexPanic ∧
    postCBResponsesWithContext decObjFail 400 ['['] = .decodeBodyErr ∧
    ¬ postCBResponsesWithContext decObjFail 400 ['['] = .indexPanic :=
  have h := C9_preStreamError decObjFail decGemQuota 400 ['['] (by decide)
  have h2 := C9_preStreamError decObjFail decGemEmpty 400 ['['] (by decide)
  ⟨h.1, h.2.2.2.2.1 ⟨⟨"quota exceeded", 429⟩⟩ [] rfl rfl,
   h2.2.2.2.2.2.1 rfl rfl, h.2.2.2.2.2.2.2 rfl, h.2.2.1⟩
